import Mathlib

/-!
Verification of the Pilot coordinator of the Air Lift simulation
(`src/semSharedMemPilot.c`).

The Pilot's behaviour is embedded as event traces: each C function is
translated to a list of steps, where a step is either a fallible semaphore
primitive (`semDown`/`semUp`, which the C code checks for `-1` and aborts on)
or an infallible action (a shared-state write, a persistence call, a sleep).
Running the steps with a failure oracle yields the trace of events the
process performs; running them with the all-success oracle yields the normal
trace.  Shared-state effects of a trace are given by a fold over a
`FlightState` record.
-/

/-- Pilot phases stored in `fSt.st.pilotStat` (names as in the source,
including the source's spelling `DROPING_PASSENGERS`). -/
inductive PilotPhase where
  | FLYING_BACK
  | READY_FOR_BOARDING
  | WAITING_FOR_BOARDING
  | FLYING
  | DROPING_PASSENGERS
  deriving DecidableEq, Repr

/-- Semaphores of the shared region used by the Pilot. -/
inductive Sem where
  | mutex
  | readyForBoarding
  | readyToFlight
  | passengersWaitInFlight
  | planeEmpty
  deriving DecidableEq, Repr

/-- Observable events of the Pilot process. -/
inductive Event where
  | semDown (s : Sem)
  | semUp (s : Sem)
  | setPilotStat (p : PilotPhase)
  | incrNFlight
  | saveState
  | saveStartBoarding
  | saveFlightArrived
  | saveFlightReturning
  | usleep (t : Nat)
  | readFinished (b : Bool)
  | exitFailure
  | detach
  deriving DecidableEq, Repr

/-- A step of a Pilot operation: a fallible semaphore primitive (checked
against `-1` in the C code) or an infallible action. -/
inductive Step where
  | prim (e : Event)
  | act (e : Event)
  deriving DecidableEq, Repr

/-- Run a list of steps under a failure oracle `fail` (whether the `k`-th
primitive call performed reports an error).  Returns the events performed and
whether the run aborted.  A failing primitive makes the process print an
error and `exit(EXIT_FAILURE)` at once, performing nothing further. -/
def runSteps (fail : Nat → Bool) : Nat → List Step → List Event × Bool
  | _, [] => ([], false)
  | k, Step.act e :: rest =>
      let r := runSteps fail k rest
      (e :: r.1, r.2)
  | k, Step.prim e :: rest =>
      if fail k then ([Event.exitFailure], true)
      else
        let r := runSteps fail (k + 1) rest
        (e :: r.1, r.2)

/-- Oracle under which every primitive succeeds. -/
def noFail : Nat → Bool := fun _ => false

/-- Steps of `flight(go)`: lock the mutex, set `pilotStat` to `FLYING`
(outbound) or `FLYING_BACK` (return), `saveState`, unlock, then `usleep` for
the computed travel time `t`. -/
def flightSteps (go : Bool) (t : Nat) : List Step :=
  [ Step.prim (Event.semDown Sem.mutex),
    Step.act (Event.setPilotStat (if go then PilotPhase.FLYING else PilotPhase.FLYING_BACK)),
    Step.act Event.saveState,
    Step.prim (Event.semUp Sem.mutex),
    Step.act (Event.usleep t) ]

/-- Steps of `signalReadyForBoarding()`: under the mutex set
`pilotStat = READY_FOR_BOARDING`, increment `nFlight`, persist; unlock; then
raise `readyForBoarding`. -/
def signalReadyForBoardingSteps : List Step :=
  [ Step.prim (Event.semDown Sem.mutex),
    Step.act (Event.setPilotStat PilotPhase.READY_FOR_BOARDING),
    Step.act Event.incrNFlight,
    Step.act Event.saveState,
    Step.act Event.saveStartBoarding,
    Step.prim (Event.semUp Sem.mutex),
    Step.prim (Event.semUp Sem.readyForBoarding) ]

/-- Steps of `waitUntilReadyToFlight()`: under the mutex set
`pilotStat = WAITING_FOR_BOARDING`, persist; unlock; then block on
`readyToFlight`. -/
def waitUntilReadyToFlightSteps : List Step :=
  [ Step.prim (Event.semDown Sem.mutex),
    Step.act (Event.setPilotStat PilotPhase.WAITING_FOR_BOARDING),
    Step.act Event.saveState,
    Step.prim (Event.semUp Sem.mutex),
    Step.prim (Event.semDown Sem.readyToFlight) ]

/-- Steps of `dropPassengersAtTarget()`: under the mutex set
`pilotStat = DROPING_PASSENGERS`, persist arrival and state; unlock; raise
`passengersWaitInFlight`; block on `planeEmpty`; then relock, persist the
return, unlock. -/
def dropPassengersAtTargetSteps : List Step :=
  [ Step.prim (Event.semDown Sem.mutex),
    Step.act (Event.setPilotStat PilotPhase.DROPING_PASSENGERS),
    Step.act Event.saveFlightArrived,
    Step.act Event.saveState,
    Step.prim (Event.semUp Sem.mutex),
    Step.prim (Event.semUp Sem.passengersWaitInFlight),
    Step.prim (Event.semDown Sem.planeEmpty),
    Step.prim (Event.semDown Sem.mutex),
    Step.act Event.saveFlightReturning,
    Step.prim (Event.semUp Sem.mutex) ]

/-- Normal (all primitives succeed) trace of `flight(go)`. -/
def flightTrace (go : Bool) (t : Nat) : List Event :=
  (runSteps noFail 0 (flightSteps go t)).1

/-- Normal trace of `signalReadyForBoarding()`. -/
def signalReadyForBoardingTrace : List Event :=
  (runSteps noFail 0 signalReadyForBoardingSteps).1

/-- Normal trace of `waitUntilReadyToFlight()`. -/
def waitUntilReadyToFlightTrace : List Event :=
  (runSteps noFail 0 waitUntilReadyToFlightSteps).1

/-- Normal trace of `dropPassengersAtTarget()`. -/
def dropPassengersAtTargetTrace : List Event :=
  (runSteps noFail 0 dropPassengersAtTargetSteps).1

/-- Travel durations drawn for the two `flight` calls of one cycle. -/
structure CycleDur where
  tRet : Nat
  tGo : Nat
  deriving DecidableEq, Repr

/-- Trace of one loop body of `main`: `flight(false)`,
`signalReadyForBoarding()`, `waitUntilReadyToFlight()`, `flight(true)`,
`dropPassengersAtTarget()`. -/
def cycleTrace (c : CycleDur) : List Event :=
  flightTrace false c.tRet ++ signalReadyForBoardingTrace ++
    waitUntilReadyToFlightTrace ++ flightTrace true c.tGo ++
    dropPassengersAtTargetTrace

/-- Trace of the `while (!isFinished())` loop of `main` followed by
`shmemDettach`, for a run in which `isFinished()` returns `false` for each
listed cycle and then `true`.  `isFinished()` reads `sh->fSt.finished`
directly, with no semaphore operation around it. -/
def mainTrace : List CycleDur → List Event
  | [] => [Event.readFinished true, Event.detach]
  | c :: rest => Event.readFinished false :: (cycleTrace c ++ mainTrace rest)

/-- Travel time computed in `flight`:
`floor((MAXFLIGHT * random()) / RAND_MAX + 100.0)` where the division is
integer division of nonnegative integers (parameterized by `MAXFLIGHT` and
`RAND_MAX`, whose values live in headers outside this file, and by the
`random()` draw `r`). -/
def sleepDuration (maxflight r randmax : Nat) : Nat :=
  maxflight * r / randmax + 100

/-- Shared `FlightState` fields relevant to the Pilot.  `pilotStat` is
`fSt.st.pilotStat`, `nFlight` and `finished` are the homonymous `fSt`
fields.  `boardedCount` — modelled from the spec: the boarding/remaining
counter of the data model (its header is not part of this source tree);
the Pilot code never mentions it. -/
structure FlightState where
  pilotStat : PilotPhase
  nFlight : Nat
  finished : Bool
  boardedCount : Nat
  deriving DecidableEq, Repr

/-- Effect of one event on the shared state. -/
def applyEvent (s : FlightState) : Event → FlightState
  | Event.setPilotStat p => { s with pilotStat := p }
  | Event.incrNFlight => { s with nFlight := s.nFlight + 1 }
  | _ => s

/-- Effect of a trace on the shared state. -/
def runTrace (s : FlightState) (tr : List Event) : FlightState :=
  tr.foldl applyEvent s

/-- Mutex depth after one event (the Pilot uses the mutex in a balanced
way, so `Nat` depth suffices). -/
def mutexDelta (d : Nat) : Event → Nat
  | Event.semDown Sem.mutex => d + 1
  | Event.semUp Sem.mutex => d - 1
  | _ => d

/-- Mutex depth after a trace, starting from depth `d`. -/
def depthAfter (d : Nat) (tr : List Event) : Nat :=
  tr.foldl mutexDelta d

/-- Events at which the process may suspend or that hand a rendezvous
signal to another actor: waits on `readyToFlight`/`planeEmpty`, raises of
`readyForBoarding`/`passengersWaitInFlight`, and travel sleeps. -/
def isSuspending : Event → Bool
  | Event.semDown Sem.readyToFlight => true
  | Event.semDown Sem.planeEmpty => true
  | Event.semUp Sem.readyForBoarding => true
  | Event.semUp Sem.passengersWaitInFlight => true
  | Event.usleep _ => true
  | _ => false

/-- Passes when every suspending event of the trace occurs at mutex
depth `0` (starting from depth `d`). -/
def noMutexAcrossSuspend : Nat → List Event → Bool
  | _, [] => true
  | d, e :: rest =>
      (!(isSuspending e) || d == 0) && noMutexAcrossSuspend (mutexDelta d e) rest

/-- Passes when every read of `finished` in the trace occurs at mutex
depth greater than `0` (i.e. under the mutex), starting from depth `d`. -/
def finishedReadUnderMutex : Nat → List Event → Bool
  | _, [] => true
  | d, e :: rest =>
      (match e with
        | Event.readFinished _ => d != 0
        | _ => true) && finishedReadUnderMutex (mutexDelta d e) rest

/-- Passes when every read of `finished` in the trace occurs at mutex
depth `0` (outside the mutex), starting from depth `d`. -/
def finishedReadOutsideMutex : Nat → List Event → Bool
  | _, [] => true
  | d, e :: rest =>
      (match e with
        | Event.readFinished _ => d == 0
        | _ => true) && finishedReadOutsideMutex (mutexDelta d e) rest

/-- Passes when every write to the shared state (`setPilotStat` or
`incrNFlight`) and every persistence call occurs at mutex depth greater
than `0`, starting from depth `d`. -/
def writesUnderMutex : Nat → List Event → Bool
  | _, [] => true
  | d, e :: rest =>
      (match e with
        | Event.setPilotStat _ => d != 0
        | Event.incrNFlight => d != 0
        | Event.saveState => d != 0
        | Event.saveStartBoarding => d != 0
        | Event.saveFlightArrived => d != 0
        | Event.saveFlightReturning => d != 0
        | _ => true) && writesUnderMutex (mutexDelta d e) rest

/-- Sequence of values written to `pilotStat` along a trace. -/
def phaseWrites : List Event → List PilotPhase
  | [] => []
  | Event.setPilotStat p :: rest => p :: phaseWrites rest
  | _ :: rest => phaseWrites rest

/-- Phase writes of one cycle, in program order. -/
def cyclePhases : List PilotPhase :=
  [ PilotPhase.FLYING_BACK, PilotPhase.READY_FOR_BOARDING,
    PilotPhase.WAITING_FOR_BOARDING, PilotPhase.FLYING,
    PilotPhase.DROPING_PASSENGERS ]

/-- Passes when no two consecutive entries of the list are equal. -/
def noConsecDup : List PilotPhase → Bool
  | [] => true
  | [_] => true
  | a :: b :: rest => (a != b) && noConsecDup (b :: rest)

/-- Whether the trace contains a read of `finished` that returned `true`. -/
def hasFinishedTrue : List Event → Bool
  | [] => false
  | Event.readFinished true :: _ => true
  | _ :: rest => hasFinishedTrue rest

/-- Suffix of the trace strictly after the first read of `finished` that
returned `true` (the whole trace has no such read). -/
def afterFinishedTrue : List Event → List Event
  | [] => []
  | Event.readFinished true :: rest => rest
  | _ :: rest => afterFinishedTrue rest

/-- Underlying event of a step. -/
def stepEvent : Step → Event
  | Step.prim e => e
  | Step.act e => e

/-! ## Helper lemmas -/

theorem phaseWrites_append (a b : List Event) :
    phaseWrites (a ++ b) = phaseWrites a ++ phaseWrites b := by
  induction a with
  | nil => rfl
  | cons e rest ih => cases e <;> simp [phaseWrites, ih]

theorem phaseWrites_cycleTrace (c : CycleDur) :
    phaseWrites (cycleTrace c) = cyclePhases := rfl

theorem phaseWrites_mainTrace (cycles : List CycleDur) :
    phaseWrites (mainTrace cycles) = (cycles.map fun _ => cyclePhases).flatten := by
  induction cycles with
  | nil => rfl
  | cons c rest ih =>
      show phaseWrites (cycleTrace c ++ mainTrace rest) = _
      simp [phaseWrites_append, phaseWrites_cycleTrace, ih]

theorem noConsecDup_dropping (cycles : List CycleDur) :
    noConsecDup (PilotPhase.DROPING_PASSENGERS :: phaseWrites (mainTrace cycles)) = true := by
  induction cycles with
  | nil => rfl
  | cons c rest ih =>
      have h : phaseWrites (mainTrace (c :: rest)) =
          PilotPhase.FLYING_BACK :: PilotPhase.READY_FOR_BOARDING ::
          PilotPhase.WAITING_FOR_BOARDING :: PilotPhase.FLYING ::
          PilotPhase.DROPING_PASSENGERS :: phaseWrites (mainTrace rest) := by
        show phaseWrites (cycleTrace c ++ mainTrace rest) = _
        simp [phaseWrites_append, phaseWrites_cycleTrace, cyclePhases]
      rw [h]
      simp [noConsecDup, ih]

theorem noConsecDup_tail (a : PilotPhase) (l : List PilotPhase)
    (h : noConsecDup (a :: l) = true) : noConsecDup l = true := by
  cases l with
  | nil => rfl
  | cons b rest => simp [noConsecDup] at h; exact h.2

theorem finishedReadOutsideMutex_append (a b : List Event) (d : Nat) :
    finishedReadOutsideMutex d (a ++ b) =
      (finishedReadOutsideMutex d a && finishedReadOutsideMutex (depthAfter d a) b) := by
  induction a generalizing d with
  | nil => simp [finishedReadOutsideMutex, depthAfter]
  | cons e rest ih =>
      cases e <;>
        simp [finishedReadOutsideMutex, depthAfter, mutexDelta, ih, Bool.and_assoc]

theorem hasFinishedTrue_cycleTrace (c : CycleDur) :
    hasFinishedTrue (cycleTrace c) = false := rfl

theorem afterFinishedTrue_append (a b : List Event) (h : hasFinishedTrue a = false) :
    afterFinishedTrue (a ++ b) = afterFinishedTrue b := by
  induction a with
  | nil => rfl
  | cons e rest ih =>
      cases e <;> try exact ih h
      rename_i v
      cases v
      · exact ih h
      · exact Bool.noConfusion h

theorem afterFinishedTrue_mainTrace (cycles : List CycleDur) :
    afterFinishedTrue (mainTrace cycles) = [Event.detach] := by
  induction cycles with
  | nil => rfl
  | cons c rest ih =>
      show afterFinishedTrue (cycleTrace c ++ mainTrace rest) = _
      rw [afterFinishedTrue_append _ _ (hasFinishedTrue_cycleTrace c), ih]

theorem finishedReadOutsideMutex_mainTrace (cycles : List CycleDur) :
    finishedReadOutsideMutex 0 (mainTrace cycles) = true := by
  induction cycles with
  | nil => rfl
  | cons c rest ih =>
      show finishedReadOutsideMutex 0 (cycleTrace c ++ mainTrace rest) = true
      rw [finishedReadOutsideMutex_append]
      have h1 : finishedReadOutsideMutex 0 (cycleTrace c) = true := rfl
      have h2 : depthAfter 0 (cycleTrace c) = 0 := rfl
      rw [h1, h2, ih]
      rfl

theorem runSteps_abort (fail : Nat → Bool) (steps : List Step) :
    ∀ k, (runSteps fail k steps).2 = true →
      (∀ st ∈ steps, stepEvent st ≠ Event.exitFailure) →
      ∃ pre, (runSteps fail k steps).1 = pre ++ [Event.exitFailure] ∧
        Event.exitFailure ∉ pre := by
  induction steps with
  | nil => intro k h _; simp [runSteps] at h
  | cons st rest ih =>
      intro k h hne
      cases st with
      | act e =>
          have h2 : (runSteps fail k rest).2 = true := by
            simpa [runSteps] using h
          obtain ⟨pre, hp, hn⟩ :=
            ih k h2 (fun s hs => hne s (List.mem_cons_of_mem _ hs))
          refine ⟨e :: pre, ?_, ?_⟩
          · simp [runSteps, hp]
          · intro hmem
            rcases List.mem_cons.mp hmem with he | hx
            · exact hne (Step.act e) (List.mem_cons_self _ _) he.symm
            · exact hn hx
      | prim e =>
          by_cases hf : fail k = true
          · exact ⟨[], by simp [runSteps, hf], by simp⟩
          · have hf' : fail k = false := by simpa using hf
            have h2 : (runSteps fail (k + 1) rest).2 = true := by
              simpa [runSteps, hf'] using h
            obtain ⟨pre, hp, hn⟩ :=
              ih (k + 1) h2 (fun s hs => hne s (List.mem_cons_of_mem _ hs))
            refine ⟨e :: pre, ?_, ?_⟩
            · simp [runSteps, hf', hp]
            · intro hmem
              rcases List.mem_cons.mp hmem with he | hx
              · exact hne (Step.prim e) (List.mem_cons_self _ _) he.symm
              · exact hn hx

/-! ## Claims -/

/-- Claim C1, counterexample: in the run with zero cycles the Pilot reads the
`finished` flag at the top of the loop at mutex depth `0`, so the claim that
every such read happens while holding the mutual-exclusion gate is false:
`isFinished()` performs no semaphore operation at all. -/
theorem finished_read_not_under_mutex :
    finishedReadUnderMutex 0 (mainTrace []) = false := by decide

/-- Claim C1 (amended): at the top of every cycle, before starting outbound
travel, the Pilot reads the shared `finished` flag WITHOUT holding the
mutual-exclusion gate (`isFinished()` does no semaphore operation), and if it
is true the loop terminates cleanly: the only remaining event is the detach
from the shared region — no further signal raised, no partial cycle
started. -/
theorem finished_check_outside_mutex_clean_exit (cycles : List CycleDur) :
    finishedReadOutsideMutex 0 (mainTrace cycles) = true ∧
    afterFinishedTrue (mainTrace cycles) = [Event.detach] :=
  ⟨finishedReadOutsideMutex_mainTrace cycles, afterFinishedTrue_mainTrace cycles⟩

/-- Claim C2: within every cycle of the Pilot's loop the values written to
the Pilot's phase field are exactly `FLYING_BACK`, `READY_FOR_BOARDING`,
`WAITING_FOR_BOARDING`, `FLYING`, `DROPING_PASSENGERS`, followed by the next
cycle's `FLYING_BACK`; the full run writes exactly the per-cycle sequence
repeated once per cycle, and no two consecutive writes are equal. -/
theorem pilot_phase_sequence (cycles : List CycleDur) :
    phaseWrites (mainTrace cycles) = (cycles.map fun _ => cyclePhases).flatten ∧
    noConsecDup (phaseWrites (mainTrace cycles)) = true :=
  ⟨phaseWrites_mainTrace cycles,
   noConsecDup_tail _ _ (noConsecDup_dropping cycles)⟩

/-- Claim C3: in every Pilot operation the mutex is at depth `0` (released)
at every wait on `readyToFlight` or `planeEmpty`, at every raise of
`readyForBoarding` or `passengersWaitInFlight`, and at the travel sleep. -/
theorem mutex_not_held_across_suspension (go : Bool) (t : Nat) :
    noMutexAcrossSuspend 0 (flightTrace go t) = true ∧
    noMutexAcrossSuspend 0 signalReadyForBoardingTrace = true ∧
    noMutexAcrossSuspend 0 waitUntilReadyToFlightTrace = true ∧
    noMutexAcrossSuspend 0 dropPassengersAtTargetTrace = true := by
  refine ⟨?_, by decide, by decide, by decide⟩
  cases go <;> rfl

/-- Claim C4: `signalReadyForBoarding` sets the phase to
`READY_FOR_BOARDING` and increments `nFlight` by exactly one, both under the
mutex; it raises `readyForBoarding` exactly once, as its final event, at
mutex depth `0` (after the release); and a full cycle increments `nFlight`
by exactly one. -/
theorem signalReadyForBoarding_correct (s : FlightState) (c : CycleDur) :
    runTrace s signalReadyForBoardingTrace =
      { s with pilotStat := PilotPhase.READY_FOR_BOARDING,
               nFlight := s.nFlight + 1 } ∧
    writesUnderMutex 0 signalReadyForBoardingTrace = true ∧
    List.count (Event.semUp Sem.readyForBoarding) signalReadyForBoardingTrace = 1 ∧
    noMutexAcrossSuspend 0 signalReadyForBoardingTrace = true ∧
    List.getLast? signalReadyForBoardingTrace = some (Event.semUp Sem.readyForBoarding) ∧
    (runTrace s (cycleTrace c)).nFlight = s.nFlight + 1 :=
  ⟨rfl, by decide, by decide, by decide, by decide, rfl⟩

/-- Claim C5: `waitUntilReadyToFlight` locks the mutex, sets the phase to
`WAITING_FOR_BOARDING`, persists the state, releases the mutex, and then
blocks on `readyToFlight` — exactly these events in this order, with no
other state modification (the state change is exactly the phase write). -/
theorem waitUntilReadyToFlight_correct (s : FlightState) :
    waitUntilReadyToFlightTrace =
      [ Event.semDown Sem.mutex,
        Event.setPilotStat PilotPhase.WAITING_FOR_BOARDING,
        Event.saveState, Event.semUp Sem.mutex,
        Event.semDown Sem.readyToFlight ] ∧
    runTrace s waitUntilReadyToFlightTrace =
      { s with pilotStat := PilotPhase.WAITING_FOR_BOARDING } ∧
    writesUnderMutex 0 waitUntilReadyToFlightTrace = true :=
  ⟨rfl, rfl, by decide⟩

/-- Claim C6: `dropPassengersAtTarget` sets the phase to
`DROPING_PASSENGERS` under the mutex, releases the mutex, raises
`passengersWaitInFlight` exactly once, then blocks on `planeEmpty`, and only
after that wait completes performs its remaining events and returns; the
shared-state change is exactly the phase write. -/
theorem dropPassengersAtTarget_correct (s : FlightState) :
    dropPassengersAtTargetTrace =
      [ Event.semDown Sem.mutex,
        Event.setPilotStat PilotPhase.DROPING_PASSENGERS,
        Event.saveFlightArrived, Event.saveState, Event.semUp Sem.mutex,
        Event.semUp Sem.passengersWaitInFlight, Event.semDown Sem.planeEmpty,
        Event.semDown Sem.mutex, Event.saveFlightReturning, Event.semUp Sem.mutex ] ∧
    runTrace s dropPassengersAtTargetTrace =
      { s with pilotStat := PilotPhase.DROPING_PASSENGERS } ∧
    List.count (Event.semUp Sem.passengersWaitInFlight) dropPassengersAtTargetTrace = 1 ∧
    writesUnderMutex 0 dropPassengersAtTargetTrace = true ∧
    noMutexAcrossSuspend 0 dropPassengersAtTargetTrace = true :=
  ⟨rfl, rfl, by decide, by decide, by decide⟩

/-- Claim C7: `flight(go)` sets the phase to `FLYING` (go) or `FLYING_BACK`
(return) and persists the state under the mutex, releases the mutex, and
then sleeps; the sleep is the final event, never skipped, and the computed
microsecond value `MAXFLIGHT * r / RAND_MAX + 100` is strictly positive, at
least `100` and at most `MAXFLIGHT + 100` whenever the `random()` draw `r`
is at most `RAND_MAX`. -/
theorem flight_correct (s : FlightState) (go : Bool) (m r rm : Nat)
    (hr : r ≤ rm) (hrm : 0 < rm) :
    flightTrace go (sleepDuration m r rm) =
      [ Event.semDown Sem.mutex,
        Event.setPilotStat (if go then PilotPhase.FLYING else PilotPhase.FLYING_BACK),
        Event.saveState, Event.semUp Sem.mutex,
        Event.usleep (sleepDuration m r rm) ] ∧
    runTrace s (flightTrace go (sleepDuration m r rm)) =
      { s with pilotStat := if go then PilotPhase.FLYING else PilotPhase.FLYING_BACK } ∧
    0 < sleepDuration m r rm ∧
    100 ≤ sleepDuration m r rm ∧
    sleepDuration m r rm ≤ m + 100 := by
  refine ⟨by cases go <;> rfl, by cases go <;> rfl, ?_, ?_, ?_⟩
  · exact Nat.lt_of_lt_of_le (by norm_num) (Nat.le_add_left 100 _)
  · exact Nat.le_add_left 100 _
  · have hdiv : m * r / rm ≤ m :=
      Nat.div_le_of_le_mul' (by
        calc m * r ≤ m * rm := Nat.mul_le_mul_left m hr
          _ = rm * m := Nat.mul_comm m rm)
    exact Nat.add_le_add_right hdiv 100

/-- Claim C7, witness: `flight_correct` instantiated at `go = true`,
`MAXFLIGHT = 100`, `r = 50`, `RAND_MAX = 2147483647`. -/
theorem flight_correct_witness :
    flightTrace true (sleepDuration 100 50 2147483647) =
      [ Event.semDown Sem.mutex,
        Event.setPilotStat (if true then PilotPhase.FLYING else PilotPhase.FLYING_BACK),
        Event.saveState, Event.semUp Sem.mutex,
        Event.usleep (sleepDuration 100 50 2147483647) ] ∧
    runTrace ⟨PilotPhase.FLYING_BACK, 0, false, 0⟩
        (flightTrace true (sleepDuration 100 50 2147483647)) =
      { pilotStat := if true then PilotPhase.FLYING else PilotPhase.FLYING_BACK,
        nFlight := 0, finished := false, boardedCount := 0 } ∧
    0 < sleepDuration 100 50 2147483647 ∧
    100 ≤ sleepDuration 100 50 2147483647 ∧
    sleepDuration 100 50 2147483647 ≤ 100 + 100 :=
  flight_correct ⟨PilotPhase.FLYING_BACK, 0, false, 0⟩ true 100 50 2147483647
    (by norm_num) (by norm_num)

/-- Claim C8: once `finished` is observed true at a cycle boundary, the
Pilot raises no further `readyForBoarding`, writes no further phase, and
performs no further cycle operation: the only event after that observation
is the detach from the shared region. -/
theorem no_action_after_finished (cycles : List CycleDur) :
    afterFinishedTrue (mainTrace cycles) = [Event.detach] ∧
    Event.semUp Sem.readyForBoarding ∉ afterFinishedTrue (mainTrace cycles) ∧
    phaseWrites (afterFinishedTrue (mainTrace cycles)) = [] := by
  have h := afterFinishedTrue_mainTrace cycles
  refine ⟨h, ?_, ?_⟩
  · rw [h]; decide
  · rw [h]; rfl

/-- Claim C9: in any of the four Pilot operations, if a semaphore primitive
reports an error, the run aborts at once: the event trace is exactly the
successfully performed events followed by a single `exit(EXIT_FAILURE)`,
with no retry and no further protocol step after the failure. -/
theorem primitive_failure_aborts (fail : Nat → Bool) (go : Bool) (t : Nat)
    (steps : List Step)
    (hop : steps = flightSteps go t ∨ steps = signalReadyForBoardingSteps ∨
           steps = waitUntilReadyToFlightSteps ∨ steps = dropPassengersAtTargetSteps)
    (habort : (runSteps fail 0 steps).2 = true) :
    ∃ pre, (runSteps fail 0 steps).1 = pre ++ [Event.exitFailure] ∧
      Event.exitFailure ∉ pre := by
  apply runSteps_abort fail steps 0 habort
  rcases hop with h | h | h | h <;> subst h
  · intro st hst
    simp [flightSteps] at hst
    rcases hst with rfl | rfl | rfl | rfl | rfl <;> simp [stepEvent]
  · intro st hst
    simp [signalReadyForBoardingSteps] at hst
    rcases hst with rfl | rfl | rfl | rfl | rfl | rfl | rfl <;> simp [stepEvent]
  · intro st hst
    simp [waitUntilReadyToFlightSteps] at hst
    rcases hst with rfl | rfl | rfl | rfl | rfl <;> simp [stepEvent]
  · intro st hst
    simp [dropPassengersAtTargetSteps] at hst
    rcases hst with rfl | rfl | rfl | rfl | rfl | rfl | rfl | rfl | rfl | rfl <;>
      simp [stepEvent]

/-- Claim C9, witness: `primitive_failure_aborts` instantiated at
`flight(true)` with travel time `5` under an oracle failing the first
primitive call. -/
theorem primitive_failure_aborts_witness :
    ∃ pre, (runSteps (fun _ => true) 0 (flightSteps true 5)).1 =
        pre ++ [Event.exitFailure] ∧
      Event.exitFailure ∉ pre :=
  primitive_failure_aborts (fun _ => true) true 5 (flightSteps true 5)
    (Or.inl rfl) (by decide)

/-- Claim C10: `flight`, `waitUntilReadyToFlight` and
`dropPassengersAtTarget` leave `nFlight`, `finished` and the boarding
counter unchanged (they write only the phase field);
`signalReadyForBoarding` is the only Pilot operation that modifies
`nFlight` (by exactly one) and it also leaves `finished` and the boarding
counter unchanged; no Pilot operation ever writes `finished`. -/
theorem pilot_frame_effects (s : FlightState) (go : Bool) (t : Nat) :
    (runTrace s (flightTrace go t)).nFlight = s.nFlight ∧
    (runTrace s (flightTrace go t)).finished = s.finished ∧
    (runTrace s (flightTrace go t)).boardedCount = s.boardedCount ∧
    (runTrace s waitUntilReadyToFlightTrace).nFlight = s.nFlight ∧
    (runTrace s waitUntilReadyToFlightTrace).finished = s.finished ∧
    (runTrace s waitUntilReadyToFlightTrace).boardedCount = s.boardedCount ∧
    (runTrace s dropPassengersAtTargetTrace).nFlight = s.nFlight ∧
    (runTrace s dropPassengersAtTargetTrace).finished = s.finished ∧
    (runTrace s dropPassengersAtTargetTrace).boardedCount = s.boardedCount ∧
    (runTrace s signalReadyForBoardingTrace).nFlight = s.nFlight + 1 ∧
    (runTrace s signalReadyForBoardingTrace).finished = s.finished ∧
    (runTrace s signalReadyForBoardingTrace).boardedCount = s.boardedCount := by
  cases go <;>
    exact ⟨rfl, rfl, rfl, rfl, rfl, rfl, rfl, rfl, rfl, rfl, rfl, rfl⟩
